import Mathlib

/-!
Verification of the nodify-express example servers.

The repository holds two example programs: a single-server static file
server (001_static.js) and a multi-server plaintext/TLS variant
(002_https.js).  Both build express server objects from hardcoded option
records, conditionally register middleware (favicon, logger, static,
directory) in a fixed order, install a SIGHUP handler, and bind listening
sockets.  This development embeds the option records, the configuration
and startup code paths, and the middleware registration order, and proves
properties about them.
-/

namespace Nodify

/-! ### Data model: the shape of the hardcoded option records -/

/-- The listen sub-map: listen.port and listen.host, either may be absent. -/
structure ListenOpts where
  port : Option Nat
  host : Option String
  deriving DecidableEq, Repr

/-- The options sub-map passed to the static middleware (maxAge etc.). -/
structure StaticOptions where
  maxAge : Option Nat
  deriving DecidableEq, Repr

/-- The static sub-map: static.path and static.options. -/
structure StaticOpts where
  path : Option String
  options : Option StaticOptions
  deriving DecidableEq, Repr

/-- The logger sub-map: logger.path and logger.mode. -/
structure LoggerOpts where
  path : Option String
  mode : Option Nat
  deriving DecidableEq, Repr

/-- The favicon sub-map: favicon.path, which may be absent (built-in icon). -/
structure FaviconOpts where
  path : Option String
  deriving DecidableEq, Repr

/-- The directory sub-map: directory.path and directory.icons. -/
structure DirectoryOpts where
  path : Option String
  icons : Option Bool
  deriving DecidableEq, Repr

/-- One option record, as in the options array of 002_https.js; the single
options map of 001_static.js has the same shape with name, key_path and
cert_path absent.  Every field is optional, mirroring JS object fields. -/
structure OptionRecord where
  name : Option String
  key_path : Option String
  cert_path : Option String
  listen : Option ListenOpts
  static : Option StaticOpts
  logger : Option LoggerOpts
  favicon : Option FaviconOpts
  directory : Option DirectoryOpts
  deriving DecidableEq, Repr

/-- A record with every field absent. -/
def emptyRecord : OptionRecord :=
  ⟨none, none, none, none, none, none, none, none⟩

/-! ### JS value helpers (truthiness of optional strings and numbers) -/

/-- JS truthiness of an optional string field: present and non-empty. -/
def truthyStr : Option String → Bool
  | some s => !(s == "")
  | none => false

/-- JS truthiness of an optional number field: present and non-zero. -/
def truthyNat : Option Nat → Bool
  | some n => !(n == 0)
  | none => false

/-- The JS expression x or-else d on an optional number (x falsy gives d). -/
def jsOrNat : Option Nat → Nat → Nat
  | some n, d => if n = 0 then d else n
  | none, d => d

/-- String coercion of an optional number, as JS string concatenation does. -/
def jsShowNat : Option Nat → String
  | some n => toString n
  | none => "undefined"

/-- String coercion of an optional string, as JS string concatenation does. -/
def jsShowStr : Option String → String
  | some s => s
  | none => "undefined"

/-- Extract an optional string known to be present (default irrelevant). -/
def strGet : Option String → String
  | some s => s
  | none => ""

/-! ### Server objects and middleware -/

/-- What kind of listener express.createServer was asked for: plaintext, or
encrypted with the in-memory key and certificate material passed to it. -/
inductive ServerKind where
  | plaintext
  | encrypted (key : String) (cert : String)
  deriving DecidableEq, Repr

/-- True exactly on the encrypted variant. -/
def isEncryptedKind : ServerKind → Bool
  | ServerKind.plaintext => false
  | ServerKind.encrypted _ _ => true

/-- A registered middleware component, carrying the arguments the source
passes to the express factory function. -/
inductive Middleware where
  | favicon (path : Option String)
  | logger (path : String) (mode : Nat)
  | static (path : String) (opts : Option StaticOptions)
  | directory (path : String) (opts : DirectoryOpts)
  deriving DecidableEq, Repr

/-- Fixed registration rank of each middleware kind: favicon, logger,
static, directory. -/
def mwRank : Middleware → Nat
  | Middleware.favicon _ => 0
  | Middleware.logger _ _ => 1
  | Middleware.static _ _ => 2
  | Middleware.directory _ _ => 3

/-- An observable startup effect of the programs. -/
inductive Event where
  | readFile (path : String)
  | openWriteStream (path : String) (flags : String) (mode : Nat)
  | use (m : Middleware)
  | listen (port : Nat) (host : Option String)
  | print (line : String)
  | close (idx : Nat)
  deriving DecidableEq, Repr

def isListenEvent : Event → Bool
  | Event.listen _ _ => true
  | _ => false

def isOpenEvent : Event → Bool
  | Event.openWriteStream _ _ _ => true
  | _ => false

/-- Events of the construction/configuration phase: synchronous file reads,
write-stream opens and use registrations. -/
def isConfigEvent : Event → Bool
  | Event.readFile _ => true
  | Event.openWriteStream _ _ _ => true
  | Event.use _ => true
  | _ => false

/-! ### Server instantiation (002_https.js lines 98 to 105)

The source checks key_path and cert_path on the record; when both are
truthy it reads both files with fs.readFileSync and passes the contents as
key and cert to express.createServer, otherwise it calls
express.createServer with no argument.  The file system is modelled as a
function from path to optional contents; a missing file makes readFileSync
throw, which is fatal at startup (modelled as none). -/

/-- The TLS guard of the source: key_path and cert_path both truthy. -/
def tlsBothPresent (r : OptionRecord) : Bool :=
  truthyStr r.key_path && truthyStr r.cert_path

/-- express.createServer as invoked by the construction loop. -/
def createServer (fsys : String → Option String) (r : OptionRecord) :
    Option ServerKind :=
  if tlsBothPresent r then
    match r.key_path, r.cert_path with
    | some kp, some cp =>
      match fsys kp, fsys cp with
      | some keyData, some certData =>
        some (ServerKind.encrypted keyData certData)
      | _, _ => none
    | _, _ => none
  else
    some ServerKind.plaintext

/-! ### Middleware registration (001_static.js lines 122 to 164,
002_https.js lines 113 to 128; the two blocks are the same code modulo the
record being options or the current element of the options array) -/

/-- Guard of the logger registration: logger present with truthy path. -/
def loggerCond (r : OptionRecord) : Bool :=
  match r.logger with
  | some l => truthyStr l.path
  | none => false

/-- Guard of the static registration: static present with truthy path. -/
def staticCond (r : OptionRecord) : Bool :=
  match r.static with
  | some s => truthyStr s.path
  | none => false

/-- Guard of the directory registration: directory present with truthy path. -/
def directoryCond (r : OptionRecord) : Bool :=
  match r.directory with
  | some d => truthyStr d.path
  | none => false

/-- The ordered effects of the middleware configuration block for one
record: favicon, then logger (opening its write stream with flags "w" and
mode logger.mode or-else 0o644 first), then static, then directory, each
guarded exactly as in the source. -/
def configureTrace (r : OptionRecord) : List Event :=
  (match r.favicon with
   | some f => [Event.use (Middleware.favicon f.path)]
   | none => []) ++
  (match r.logger with
   | some l =>
     if truthyStr l.path then
       [Event.openWriteStream (strGet l.path) "w" (jsOrNat l.mode 0o644),
        Event.use (Middleware.logger (strGet l.path) (jsOrNat l.mode 0o644))]
     else []
   | none => []) ++
  (match r.static with
   | some s =>
     if truthyStr s.path then
       [Event.use (Middleware.static (strGet s.path) s.options)]
     else []
   | none => []) ++
  (match r.directory with
   | some d =>
     if truthyStr d.path then
       [Event.use (Middleware.directory (strGet d.path) d)]
     else []
   | none => [])

/-- Project a use event to its middleware. -/
def useOf : Event → Option Middleware
  | Event.use m => some m
  | _ => none

/-- The ordered list of middleware registered on the server built from a
record: the use events of its configuration block, in order. -/
def middlewares (r : OptionRecord) : List Middleware :=
  (configureTrace r).filterMap useOf

/-- A constructed server object: its listener kind and its registered
middleware stack. -/
structure Server where
  kind : ServerKind
  mws : List Middleware
  deriving DecidableEq, Repr

/-- Build the server object for one record (construction plus middleware
configuration); none models the fatal readFileSync throw. -/
def buildServer (fsys : String → Option String) (r : OptionRecord) :
    Option Server :=
  (createServer fsys r).map (fun k => Server.mk k (middlewares r))

/-- The construction loop of 002_https.js (lines 87 to 131): one server per
record, pushed onto apps in order. -/
def buildApps (fsys : String → Option String) :
    List OptionRecord → Option (List Server)
  | [] => some []
  | r :: rs =>
    match buildServer fsys r with
    | none => none
    | some s => (buildApps fsys rs).map (fun l => s :: l)

/-- The effects of one iteration of the construction loop: the synchronous
TLS file reads when the TLS guard holds, then the configuration effects. -/
def serverTrace (fsys : String → Option String) (r : OptionRecord) :
    Option (List Event) :=
  match createServer fsys r with
  | none => none
  | some _ =>
    some ((if tlsBothPresent r then
             [Event.readFile (strGet r.key_path),
              Event.readFile (strGet r.cert_path)]
           else []) ++ configureTrace r)

/-- The effects of the whole construction loop over the options array. -/
def buildTrace (fsys : String → Option String) :
    List OptionRecord → Option (List Event)
  | [] => some []
  | r :: rs =>
    match serverTrace fsys r with
    | none => none
    | some t => (buildTrace fsys rs).map (fun t2 => t ++ t2)

/-! ### Listen loop (002_https.js lines 141 to 147) -/

/-- The guarded listen call for one record: present listen sub-map with a
truthy port binds one socket on that port and the (possibly absent) host. -/
def listenAction (r : OptionRecord) : Option (Nat × Option String) :=
  match r.listen with
  | some l => if truthyNat l.port then some (l.port.getD 0, l.host) else none
  | none => none

/-- One iteration of the listen loop: print the starting line, then the
guarded listen call. -/
def listenStep (r : OptionRecord) : List Event :=
  Event.print ("staring server: " ++ jsShowStr r.name) ::
  (match listenAction r with
   | some pc => [Event.listen pc.1 pc.2]
   | none => [])

/-- The effects of the listen loop over the options array. -/
def listenTrace (rs : List OptionRecord) : List Event :=
  rs.flatMap listenStep

/-- The whole startup of 002_https.js: construction loop over every record,
then the listen loop. -/
def mainTrace002 (fsys : String → Option String) (rs : List OptionRecord) :
    Option (List Event) :=
  (buildTrace fsys rs).map (fun t => t ++ listenTrace rs)

/-! ### SIGHUP handlers -/

/-- The loop body of the 002_https.js SIGHUP handler, as written: starting
at i = 0, it runs while i is strictly greater than il (fuel bounds the
unrolling; the guard makes the bound irrelevant). -/
def closeLoop : Nat → Nat → Nat → List Event
  | 0, _, _ => []
  | Nat.succ fuel, i, il =>
    if i > il then Event.close i :: closeLoop fuel (i + 1) il else []

/-- The SIGHUP handler of 002_https.js (lines 133 to 137): the for loop
with initial index 0, bound apps.length and continuation guard i greater
than il, closing apps at index i each iteration. -/
def sighup002 (fuel : Nat) (apps : List Server) : List Event :=
  closeLoop fuel 0 apps.length

/-- The SIGHUP handler of 001_static.js (lines 174 to 176): close the one
app. -/
def sighup001 : List Event := [Event.close 0]

/-! ### Step 5 of 001_static.js (lines 187 to 191)

The listen call is guarded by options.listen and options.listen.port, but
the final console.log dereferences options.listen.port unguarded: when the
listen field is absent that member access throws a TypeError (modelled as
none) before anything is printed. -/

/-- The tail of 001_static.js: guarded listen, then the unguarded startup
line. -/
def step5Single (r : OptionRecord) : Option (List Event) :=
  match r.listen with
  | none => none
  | some l =>
    some ((if truthyNat l.port then
             [Event.listen (l.port.getD 0) l.host]
           else []) ++
          [Event.print ("listening for requests on port " ++
                        jsShowNat l.port)])

/-! ### The hardcoded configurations -/

/-- The options map of 001_static.js (dirname abstracts the __dirname
value).  The favicon.path line is commented out in the source, so favicon
is present with no path; logger.mode is the octal literal 0666. -/
def options001 (dirname : String) : OptionRecord :=
  ⟨none, none, none,
   some ⟨some 10100, none⟩,
   some ⟨some (dirname ++ "/static"), some ⟨some 3600000⟩⟩,
   some ⟨some (dirname ++ "/001_static.log"), some 0o666⟩,
   some ⟨none⟩,
   some ⟨some (dirname ++ "/static"), some true⟩⟩

/-- The options array of 002_https.js: a plaintext server on port 10101 and
a TLS server on port 10102 with top-level key_path and cert_path. -/
def options002 (dirname : String) : List OptionRecord :=
  [⟨some "standard http server", none, none,
    some ⟨some 10101, none⟩,
    some ⟨some (dirname ++ "/static"), some ⟨some 3600000⟩⟩,
    some ⟨some (dirname ++ "/002a_https.log"), some 0o666⟩,
    some ⟨none⟩,
    none⟩,
   ⟨some "secure https server",
    some (dirname ++ "/resources/ssl_server.key"),
    some (dirname ++ "/resources/ssl_server.crt"),
    some ⟨some 10102, none⟩,
    some ⟨some (dirname ++ "/static"), some ⟨some 3600000⟩⟩,
    some ⟨some (dirname ++ "/002b_https.log"), some 0o666⟩,
    some ⟨some (dirname ++ "/resources/nodify_favicon.ico")⟩,
    none⟩]

/-! ### Request dispatch through the middleware stack

Modelled from the spec: the request-handling behavior of the express
middleware (favicon, logger, static, directory) is framework code outside
this repository.  The spec states that a request is handed to middleware in
registration order, that the first middleware that fully handles it
short-circuits the rest, that the favicon responder intercepts exactly the
icon-request path, and that the access logger records every request that
reaches it and passes it on. -/

/-- Modelled from the spec: the icon-request path the favicon responder
intercepts. -/
def faviconRequestPath : String := "/favicon.ico"

/-- An incoming request, reduced to its path. -/
structure Request where
  path : String
  deriving DecidableEq, Repr

/-- Modelled from the spec: the file-system facts the static and directory
responders consult (does a file exist, does a listable directory exist). -/
structure FsOracle where
  hasFile : String → Bool
  hasDirListing : String → Bool

/-- Modelled from the spec: the access-log line the logger writes for a
request (fixed text format; only its existence matters here). -/
def logLine (req : Request) : String := "GET " ++ req.path

/-- Modelled from the spec: one middleware examining a request; returns
whether it fully handled the request, and the log lines it wrote.  The
favicon responder handles exactly the icon-request path; the logger writes
one line and passes the request on; the static and directory responders
handle according to the file system and write nothing. -/
def handleMw (fsys : FsOracle) (req : Request) : Middleware → Bool × List String
  | Middleware.favicon _ => (req.path == faviconRequestPath, [])
  | Middleware.logger _ _ => (false, [logLine req])
  | Middleware.static dir _ => (fsys.hasFile (dir ++ req.path), [])
  | Middleware.directory dir _ => (fsys.hasDirListing (dir ++ req.path), [])

/-- Modelled from the spec: dispatch a request through the middleware stack
in registration order; the first middleware that fully handles it
short-circuits the rest.  Returns whether some middleware handled the
request, and the log lines written while it travelled. -/
def runPipeline (fsys : FsOracle) (req : Request) :
    List Middleware → Bool × List String
  | [] => (false, [])
  | m :: rest =>
    let h := handleMw fsys req m
    if h.1 then (true, h.2)
    else
      let hr := runPipeline fsys req rest
      (hr.1, h.2 ++ hr.2)

/-! ### Concrete records and inputs used in instance theorems -/

/-- A record whose static field is present but carries no path. -/
def staticNoPathRecord : OptionRecord :=
  ⟨none, none, none, none, some ⟨none, none⟩, none, none, none⟩

/-- A record with a listen field carrying no port. -/
def listenNoPortRecord : OptionRecord :=
  ⟨none, none, none, some ⟨none, none⟩, none, none, none, none⟩

/-- A TLS-flavored record: key and certificate paths present. -/
def tlsRecordW : OptionRecord :=
  ⟨none, some "k.pem", some "c.pem", none, none, none, none, none⟩

/-- A file system in which every path holds the contents PEM. -/
def fsysW : String → Option String := fun _ => some "PEM"

/-- A record registering only the favicon responder (its path absent, as in
the sources where the path line is commented out). -/
def faviconRecordW : OptionRecord :=
  ⟨none, none, none, none, none, none, some ⟨none⟩, none⟩

/-- A file-system oracle with no files and no listable directories. -/
def fsOracleW : FsOracle := ⟨fun _ => false, fun _ => false⟩

/-- The favicon segment of the configuration block. -/
def favPart (r : OptionRecord) : List Event :=
  match r.favicon with
  | some f => [Event.use (Middleware.favicon f.path)]
  | none => []

/-- The logger segment of the configuration block. -/
def logPart (r : OptionRecord) : List Event :=
  match r.logger with
  | some l =>
    if truthyStr l.path then
      [Event.openWriteStream (strGet l.path) "w" (jsOrNat l.mode 0o644),
       Event.use (Middleware.logger (strGet l.path) (jsOrNat l.mode 0o644))]
    else []
  | none => []

/-- The static segment of the configuration block. -/
def staticPart (r : OptionRecord) : List Event :=
  match r.static with
  | some s =>
    if truthyStr s.path then
      [Event.use (Middleware.static (strGet s.path) s.options)]
    else []
  | none => []

/-- The directory segment of the configuration block. -/
def dirPart (r : OptionRecord) : List Event :=
  match r.directory with
  | some d =>
    if truthyStr d.path then [Event.use (Middleware.directory (strGet d.path) d)]
    else []
  | none => []

/-- A record registering only the logger (path present, mode absent). -/
def loggerRecordW : OptionRecord :=
  ⟨none, none, none, none, none, some ⟨some "log", none⟩, none, none⟩

/-- A record with a favicon middleware and a listen port. -/
def listenRecordW : OptionRecord :=
  ⟨none, none, none, some ⟨some 7, none⟩, none, none, some ⟨none⟩, none⟩

/-- The startup trace of a one-record options list with a favicon
registration and a listen call. -/
def traceW : List Event :=
  [Event.use (Middleware.favicon none),
   Event.print "staring server: undefined",
   Event.listen 7 none]

end Nodify

namespace Nodify

/-! ### Helper lemmas -/

/-- Explicit form of the registered middleware stack. -/
lemma middlewares_eq (r : OptionRecord) :
    middlewares r =
      (match r.favicon with
       | some f => [Middleware.favicon f.path]
       | none => []) ++
      (match r.logger with
       | some l =>
         if truthyStr l.path then
           [Middleware.logger (strGet l.path) (jsOrNat l.mode 0o644)]
         else []
       | none => []) ++
      (match r.static with
       | some s =>
         if truthyStr s.path then
           [Middleware.static (strGet s.path) s.options]
         else []
       | none => []) ++
      (match r.directory with
       | some d =>
         if truthyStr d.path then [Middleware.directory (strGet d.path) d]
         else []
       | none => []) := by
  unfold middlewares configureTrace
  rcases r with ⟨n, kp, cp, li, st, lo, fa, di⟩
  rcases fa with _ | f <;> rcases lo with _ | l <;> rcases st with _ | s <;>
    rcases di with _ | d <;>
    simp only [List.filterMap_append] <;>
    (try split) <;> (try split) <;> (try split) <;>
    simp [useOf]

end Nodify

namespace Nodify

/-- C1: the SIGHUP handler of the multi-server example closes no server.
Its for loop starts at i = 0 with bound il = apps.length and continuation
guard i greater than il, which is false at entry, so close is never
invoked on any tracked server, whatever the apps array and however far the
loop is unrolled. -/
theorem sighup002_closes_nothing (fuel : Nat) (apps : List Server) :
    sighup002 fuel apps = [] := by
  cases fuel with
  | zero => rfl
  | succ n => simp [sighup002, closeLoop]

/-- C4 (counterexample): a record whose static field is present registers
no middleware at all, refuting registration if and only if the
corresponding field is present. -/
theorem middleware_iff_field_cex :
    staticNoPathRecord.static.isSome = true ∧
    middlewares staticNoPathRecord = [] := ⟨rfl, rfl⟩

/-- C4 (amended): middleware is registered in the fixed order favicon,
access logger, static, directory (the ranks of the registered stack are
strictly increasing); the favicon responder is registered iff the favicon
field is present, and the logger, static and directory middleware are each
registered iff the corresponding field is present with a truthy path
sub-field. -/
theorem middleware_registration_order (r : OptionRecord) :
    ((middlewares r).any (fun m => mwRank m == 0) = r.favicon.isSome) ∧
    ((middlewares r).any (fun m => mwRank m == 1) = loggerCond r) ∧
    ((middlewares r).any (fun m => mwRank m == 2) = staticCond r) ∧
    ((middlewares r).any (fun m => mwRank m == 3) = directoryCond r) ∧
    List.Pairwise (· < ·) ((middlewares r).map mwRank) := by
  rw [middlewares_eq]
  rcases r with ⟨n, kp, cp, li, st, lo, fa, di⟩
  rcases fa with _ | f <;> rcases lo with _ | l <;> rcases st with _ | s <;>
    rcases di with _ | d <;>
    simp only [loggerCond, staticCond, directoryCond] <;>
    (try split) <;> (try split) <;> (try split) <;>
    simp_all [mwRank]

/-- C10 (counterexample): with the listen field absent, the tail of
001_static.js throws on the unguarded options.listen.port access before
printing anything, so no startup line is produced. -/
theorem startup_line_missing_listen_cex :
    step5Single emptyRecord = none := rfl

/-- C10 (amended): whenever the listen field is present, the startup line
naming the configured port is the last startup event, printed even when
the port is absent or zero and no socket is bound (so the line does not
imply the server is listening); when the listen field itself is absent the
unguarded member access throws and nothing is printed. -/
theorem startup_line_when_listen_present (r : OptionRecord) (l : ListenOpts)
    (hl : r.listen = some l) :
    ∃ t, step5Single r = some t ∧
      t.getLast? = some (Event.print ("listening for requests on port " ++
        jsShowNat l.port)) ∧
      (truthyNat l.port = false → ∀ e ∈ t, isListenEvent e = false) := by
  refine ⟨(if truthyNat l.port then
             [Event.listen (l.port.getD 0) l.host]
           else []) ++
          [Event.print ("listening for requests on port " ++
            jsShowNat l.port)], ?_, ?_, ?_⟩
  · simp [step5Single, hl]
  · rw [List.getLast?_append_cons]
    rfl
  · intro hp e he
    rw [hp] at he
    simp at he
    subst he
    rfl

/-- Instance of the amended C10 statement at a concrete record whose
listen field is present but has no port. -/
theorem startup_line_when_listen_present_witness :
    (step5Single listenNoPortRecord).isSome = true := by
  obtain ⟨t, ht, _, _⟩ :=
    startup_line_when_listen_present listenNoPortRecord ⟨none, none⟩ rfl
  rw [ht]
  rfl

end Nodify

namespace Nodify

/-- A truthy optional string is present. -/
lemma truthyStr_some {o : Option String} (h : truthyStr o = true) :
    ∃ s, o = some s := by
  cases o with
  | none => simp [truthyStr] at h
  | some s => exact ⟨s, rfl⟩

/-- C2: the constructed server is an encrypted listener iff both the TLS
key path and certificate path are truthy on the record; when both are
present the two files are read synchronously and their contents become the
key and certificate material of the server, and when either is absent a
plaintext server object is constructed instead. -/
theorem createServer_tls_iff (fsys : String → Option String)
    (r : OptionRecord) :
    (tlsBothPresent r = false →
      createServer fsys r = some ServerKind.plaintext) ∧
    (tlsBothPresent r = true →
      ∃ kp cp, r.key_path = some kp ∧ r.cert_path = some cp ∧
        createServer fsys r =
          (fsys kp).bind (fun keyData =>
            (fsys cp).map (fun certData =>
              ServerKind.encrypted keyData certData))) ∧
    (∀ k, createServer fsys r = some k →
      isEncryptedKind k = tlsBothPresent r) := by
  have h2 : tlsBothPresent r = true →
      ∃ kp cp, r.key_path = some kp ∧ r.cert_path = some cp ∧
        createServer fsys r =
          (fsys kp).bind (fun keyData =>
            (fsys cp).map (fun certData =>
              ServerKind.encrypted keyData certData)) := by
    intro h
    obtain ⟨hk1, hk2⟩ := Bool.and_eq_true_iff.mp h
    obtain ⟨kp, hkp⟩ := truthyStr_some hk1
    obtain ⟨cp, hcp⟩ := truthyStr_some hk2
    refine ⟨kp, cp, hkp, hcp, ?_⟩
    simp only [createServer, h, if_true, hkp, hcp]
    rcases hfk : fsys kp with _ | keyData <;>
      rcases hfc : fsys cp with _ | certData <;> simp [hfk, hfc]
  refine ⟨?_, h2, ?_⟩
  · intro h
    simp [createServer, h]
  · intro k hk
    by_cases h : tlsBothPresent r = true
    · rw [h]
      obtain ⟨kp, cp, hkp, hcp, heq⟩ := h2 h
      rw [heq] at hk
      rcases hfk : fsys kp with _ | keyData
      · rw [hfk] at hk
        simp at hk
      rcases hfc : fsys cp with _ | certData
      · rw [hfk, hfc] at hk
        simp at hk
      rw [hfk, hfc] at hk
      simp at hk
      rw [← hk]
      rfl
    · have hb : tlsBothPresent r = false := by
        simpa using h
      rw [hb]
      simp [createServer, hb] at hk
      rw [← hk]
      rfl

/-- Instances of the C2 statement: the empty record yields a plaintext
server, and a record with both TLS paths yields an encrypted server. -/
theorem createServer_tls_iff_witness :
    createServer fsysW emptyRecord = some ServerKind.plaintext ∧
    isEncryptedKind (ServerKind.encrypted "PEM" "PEM") =
      tlsBothPresent tlsRecordW :=
  ⟨(createServer_tls_iff fsysW emptyRecord).1 rfl,
   (createServer_tls_iff fsysW tlsRecordW).2.2
     (ServerKind.encrypted "PEM" "PEM") (by decide)⟩

/-- C3: a request for the favicon path, sent through the middleware stack
of any record whose favicon responder is registered (it is then registered
ahead of the logger), is fully handled and produces no access-log line. -/
theorem favicon_request_not_logged (fsys : FsOracle) (r : OptionRecord)
    (req : Request) (hfav : r.favicon.isSome = true)
    (hreq : req.path = faviconRequestPath) :
    runPipeline fsys req (middlewares r) = (true, []) := by
  rcases hf : r.favicon with _ | f
  · rw [hf] at hfav
    simp at hfav
  · have hmw : ∃ rest, middlewares r = Middleware.favicon f.path :: rest := by
      rw [middlewares_eq, hf]
      exact ⟨_, rfl⟩
    obtain ⟨rest, hmw⟩ := hmw
    rw [hmw]
    simp [runPipeline, handleMw, hreq]

/-- Instance of the C3 statement at a concrete record and request. -/
theorem favicon_request_not_logged_witness :
    runPipeline fsOracleW ⟨"/favicon.ico"⟩ (middlewares faviconRecordW) =
      (true, []) :=
  favicon_request_not_logged fsOracleW faviconRecordW ⟨"/favicon.ico"⟩ rfl rfl

end Nodify

namespace Nodify

/-- The configuration block is its four segments in order. -/
lemma configureTrace_parts (r : OptionRecord) :
    configureTrace r = ((favPart r ++ logPart r) ++ staticPart r) ++ dirPart r :=
  rfl

/-- Every configuration-block event is a configuration event. -/
lemma configureTrace_config (r : OptionRecord) :
    ∀ e ∈ configureTrace r, isConfigEvent e = true := by
  intro e he
  rw [configureTrace_parts] at he
  simp only [List.mem_append] at he
  rcases he with ((h | h) | h) | h
  · unfold favPart at h
    cases hf : r.favicon with
    | none => rw [hf] at h
              simp at h
    | some f => rw [hf] at h
                simp at h
                subst h
                rfl
  · unfold logPart at h
    cases hf : r.logger with
    | none => rw [hf] at h
              simp at h
    | some l =>
      rw [hf] at h
      cases hp : truthyStr l.path with
      | false => simp [hp] at h
      | true =>
        simp [hp] at h
        rcases h with h | h <;> subst h <;> rfl
  · unfold staticPart at h
    cases hs : r.static with
    | none => rw [hs] at h
              simp at h
    | some s =>
      rw [hs] at h
      cases hp : truthyStr s.path with
      | false => simp [hp] at h
      | true => simp [hp] at h
                subst h
                rfl
  · unfold dirPart at h
    cases hd : r.directory with
    | none => rw [hd] at h
              simp at h
    | some d =>
      rw [hd] at h
      cases hp : truthyStr d.path with
      | false => simp [hp] at h
      | true => simp [hp] at h
                subst h
                rfl

/-- A configuration event is not a listen event. -/
lemma config_not_listen {e : Event} (h : isConfigEvent e = true) :
    isListenEvent e = false := by
  cases e <;> simp_all [isConfigEvent, isListenEvent]

/-- Every event of one construction-loop iteration is a configuration
event. -/
lemma serverTrace_config (fsys : String → Option String) (r : OptionRecord)
    (t : List Event) (h : serverTrace fsys r = some t) :
    ∀ e ∈ t, isConfigEvent e = true := by
  unfold serverTrace at h
  cases hc : createServer fsys r with
  | none => rw [hc] at h
            simp at h
  | some k =>
    rw [hc] at h
    simp at h
    subst h
    intro e he
    rcases List.mem_append.mp he with h1 | h2
    · cases htls : tlsBothPresent r with
      | false => simp [htls] at h1
      | true =>
        simp [htls] at h1
        rcases h1 with h1 | h1 <;> subst h1 <;> rfl
    · exact configureTrace_config r e h2

/-- Every event of the whole construction loop is a configuration event. -/
lemma buildTrace_config (fsys : String → Option String) :
    ∀ (rs : List OptionRecord) (t : List Event),
      buildTrace fsys rs = some t → ∀ e ∈ t, isConfigEvent e = true := by
  intro rs
  induction rs with
  | nil =>
    intro t h e he
    simp [buildTrace] at h
    subst h
    simp at he
  | cons r rs ih =>
    intro t h e he
    simp only [buildTrace] at h
    cases hs : serverTrace fsys r with
    | none => rw [hs] at h
              simp at h
    | some t1 =>
      rw [hs] at h
      cases hb : buildTrace fsys rs with
      | none => rw [hb] at h
                simp at h
      | some t2 =>
        rw [hb] at h
        simp at h
        subst h
        rcases List.mem_append.mp he with h1 | h2
        · exact serverTrace_config fsys r t1 hs e h1
        · exact ih t2 hb e h2

/-- Every event of one listen-loop iteration is a print or a listen, hence
not a configuration event. -/
lemma listenStep_not_config (r : OptionRecord) :
    ∀ e ∈ listenStep r, isConfigEvent e = false := by
  intro e he
  unfold listenStep at he
  cases hla : listenAction r with
  | none =>
    rw [hla] at he
    simp at he
    subst he
    rfl
  | some pc =>
    rw [hla] at he
    simp at he
    rcases he with he | he <;> subst he <;> rfl

/-- Every event of the listen loop is not a configuration event. -/
lemma listenTrace_not_config (rs : List OptionRecord) :
    ∀ e ∈ listenTrace rs, isConfigEvent e = false := by
  intro e he
  obtain ⟨r, _, hr⟩ := List.mem_flatMap.mp he
  exact listenStep_not_config r e hr

/-- C9: startup of the multi-server example is strictly two-phased: in the
whole startup trace every configuration event (file read, stream open,
middleware registration) occurs strictly before every listen event. -/
theorem two_phase_startup (fsys : String → Option String)
    (rs : List OptionRecord) (t : List Event)
    (h : mainTrace002 fsys rs = some t)
    (i j : Nat) (hi : i < t.length) (hj : j < t.length)
    (hci : isConfigEvent (t.get ⟨i, hi⟩) = true)
    (hlj : isListenEvent (t.get ⟨j, hj⟩) = true) : i < j := by
  unfold mainTrace002 at h
  cases hb : buildTrace fsys rs with
  | none => rw [hb] at h
            simp at h
  | some bt =>
    rw [hb] at h
    simp at h
    subst h
    have hibt : i < bt.length := by
      by_contra hge
      push_neg at hge
      have hlen : i - bt.length < (listenTrace rs).length := by
        have := hi
        simp at this
        omega
      have hget : (bt ++ listenTrace rs).get ⟨i, hi⟩ =
          (listenTrace rs)[i - bt.length] := by
        rw [List.get_eq_getElem]
        exact List.getElem_append_right hge
      have hmem : (bt ++ listenTrace rs).get ⟨i, hi⟩ ∈ listenTrace rs := by
        rw [hget]
        exact List.getElem_mem hlen
      have := listenTrace_not_config rs _ hmem
      rw [hci] at this
      exact Bool.true_eq_false.mp this
    have hjbt : bt.length ≤ j := by
      by_contra hlt
      push_neg at hlt
      have hget : (bt ++ listenTrace rs).get ⟨j, hj⟩ = bt[j] := by
        rw [List.get_eq_getElem]
        exact List.getElem_append_left hlt
      have hmem : (bt ++ listenTrace rs).get ⟨j, hj⟩ ∈ bt := by
        rw [hget]
        exact List.getElem_mem hlt
      have hcfg := buildTrace_config fsys rs bt hb _ hmem
      have := config_not_listen hcfg
      rw [hlj] at this
      exact Bool.true_eq_false.mp this
    omega

end Nodify

namespace Nodify

/-- The construction loop yields one server per record, index for index. -/
lemma buildApps_spec (fsys : String → Option String) (rs : List OptionRecord) :
    ∀ apps : List Server, buildApps fsys rs = some apps →
      apps.length = rs.length ∧
      ∀ i (hi : i < apps.length) (hr : i < rs.length),
        buildServer fsys (rs.get ⟨i, hr⟩) = some (apps.get ⟨i, hi⟩) := by
  induction rs with
  | nil =>
    intro apps h
    simp [buildApps] at h
    subst h
    refine ⟨rfl, ?_⟩
    intro i hi hr
    simp at hi
  | cons r rs ih =>
    intro apps h
    simp only [buildApps] at h
    cases hs : buildServer fsys r with
    | none => rw [hs] at h
              simp at h
    | some s =>
      rw [hs] at h
      cases hb : buildApps fsys rs with
      | none => rw [hb] at h
                simp at h
      | some l =>
        rw [hb] at h
        simp at h
        subst h
        obtain ⟨hlen, hget⟩ := ih l hb
        refine ⟨by simp [hlen], ?_⟩
        intro i hi hr
        cases i with
        | zero => simpa using hs
        | succ n =>
          have hr2 : n < rs.length := by simpa using hr
          have hi2 : n < l.length := by simpa using hi
          simpa using hget n hi2 hr2

/-- C5: the tracked-server collection ends with one server per option
record (same length, the server at index i built from the record at index
i), and each record contributes at most one listen event to the listen
loop, whose port and host are the record's own listen values. -/
theorem one_server_per_record (fsys : String → Option String)
    (rs : List OptionRecord) (apps : List Server)
    (h : buildApps fsys rs = some apps) :
    apps.length = rs.length ∧
    (∀ i (hi : i < apps.length) (hr : i < rs.length),
      buildServer fsys (rs.get ⟨i, hr⟩) = some (apps.get ⟨i, hi⟩)) ∧
    (∀ r : OptionRecord, ((listenStep r).filter isListenEvent).length ≤ 1) ∧
    (∀ (r : OptionRecord) (p : Nat) (hst : Option String),
      Event.listen p hst ∈ listenStep r →
      ∃ l, r.listen = some l ∧ truthyNat l.port = true ∧
        p = l.port.getD 0 ∧ hst = l.host) := by
  obtain ⟨h1, h2⟩ := buildApps_spec fsys rs apps h
  refine ⟨h1, h2, ?_, ?_⟩
  · intro r
    unfold listenStep
    cases hla : listenAction r with
    | none => simp [isListenEvent]
    | some pc => simp [isListenEvent]
  · intro r p hst hmem
    unfold listenStep at hmem
    cases hla : listenAction r with
    | none =>
      rw [hla] at hmem
      simp at hmem
    | some pc =>
      rw [hla] at hmem
      simp at hmem
      obtain ⟨hp, hh⟩ := hmem
      unfold listenAction at hla
      cases hli : r.listen with
      | none =>
        rw [hli] at hla
        simp at hla
      | some l =>
        rw [hli] at hla
        cases hpt : truthyNat l.port with
        | false =>
          simp [hpt] at hla
        | true =>
          simp [hpt] at hla
          refine ⟨l, rfl, hpt, ?_, ?_⟩
          · rw [hp, ← hla]
          · rw [hh, ← hla]

/-- Instance of the C5 statement at a one-record options list. -/
theorem one_server_per_record_witness :
    buildApps fsysW [emptyRecord] =
      some [Server.mk ServerKind.plaintext []] ∧
    ([Server.mk ServerKind.plaintext []] : List Server).length =
      ([emptyRecord] : List OptionRecord).length := by
  have h : buildApps fsysW [emptyRecord] =
      some [Server.mk ServerKind.plaintext []] := rfl
  exact ⟨h, (one_server_per_record fsysW [emptyRecord] _ h).1⟩

/-- The logger segment when the logger guard holds. -/
lemma logPart_eq (r : OptionRecord) (l : LoggerOpts) (hl : r.logger = some l)
    (hp : truthyStr l.path = true) :
    logPart r =
      [Event.openWriteStream (strGet l.path) "w" (jsOrNat l.mode 0o644),
       Event.use (Middleware.logger (strGet l.path) (jsOrNat l.mode 0o644))] := by
  unfold logPart
  rw [hl]
  simp [hp]

/-- C6: when the logger field carries a truthy path, the configuration
block opens exactly one write stream, in truncate mode (flags "w"), and
the open happens before the logger middleware registration that uses the
stream; nothing before the open is a stream open. -/
theorem logger_stream_truncate_before_use (r : OptionRecord)
    (l : LoggerOpts) (hl : r.logger = some l)
    (hp : truthyStr l.path = true) :
    ∃ pre post,
      configureTrace r =
        pre ++ Event.openWriteStream (strGet l.path) "w"
            (jsOrNat l.mode 0o644) ::
          Event.use (Middleware.logger (strGet l.path)
            (jsOrNat l.mode 0o644)) :: post ∧
      (∀ e ∈ pre, isOpenEvent e = false) ∧
      (configureTrace r).countP (fun e => isOpenEvent e) = 1 := by
  have hlog := logPart_eq r l hl hp
  refine ⟨favPart r, staticPart r ++ dirPart r, ?_, ?_, ?_⟩
  · rw [configureTrace_parts, hlog]
    simp
  · intro e he
    unfold favPart at he
    cases hf : r.favicon with
    | none => rw [hf] at he
              simp at he
    | some f => rw [hf] at he
                simp at he
                subst he
                rfl
  · rw [configureTrace_parts]
    rw [List.countP_append, List.countP_append, List.countP_append]
    have c1 : (favPart r).countP (fun e => isOpenEvent e) = 0 := by
      unfold favPart
      cases hf : r.favicon with
      | none => rfl
      | some f => rfl
    have c2 : (logPart r).countP (fun e => isOpenEvent e) = 1 := by
      rw [hlog]
      rfl
    have c3 : (staticPart r).countP (fun e => isOpenEvent e) = 0 := by
      unfold staticPart
      cases hs : r.static with
      | none => rfl
      | some s =>
        cases hsp : truthyStr s.path with
        | false => simp [hsp]
        | true => simp [hsp, isOpenEvent]
    have c4 : (dirPart r).countP (fun e => isOpenEvent e) = 0 := by
      unfold dirPart
      cases hd : r.directory with
      | none => rfl
      | some d =>
        cases hdp : truthyStr d.path with
        | false => simp [hdp]
        | true => simp [hdp, isOpenEvent]
    rw [c1, c2, c3, c4]

/-- Instance of the C6 statement at a concrete logger-only record. -/
theorem logger_stream_truncate_before_use_witness :
    (configureTrace loggerRecordW).countP (fun e => isOpenEvent e) = 1 := by
  obtain ⟨pre, post, hEq, hpre, hcount⟩ :=
    logger_stream_truncate_before_use loggerRecordW ⟨some "log", none⟩ rfl
      (by decide)
  exact hcount

end Nodify

namespace Nodify

/-- C7: absent optional fields only skip the corresponding registration or
bind step, raising no error: no middleware of the corresponding kind is
registered for an absent field, an absent listen field yields no bind
action, a record without the TLS pair always yields a plaintext server
(configuration never fails), and the number of registrations is determined
by the presence guards alone (path values are never inspected further at
configuration time). -/
theorem absent_fields_skipped (fsys : String → Option String)
    (r : OptionRecord) :
    (r.favicon = none → ∀ m ∈ middlewares r, mwRank m ≠ 0) ∧
    (r.logger = none → ∀ m ∈ middlewares r, mwRank m ≠ 1) ∧
    (r.static = none → ∀ m ∈ middlewares r, mwRank m ≠ 2) ∧
    (r.directory = none → ∀ m ∈ middlewares r, mwRank m ≠ 3) ∧
    (r.listen = none → listenAction r = none) ∧
    (tlsBothPresent r = false →
      buildServer fsys r = some (Server.mk ServerKind.plaintext
        (middlewares r))) ∧
    (middlewares r).length =
      ((if r.favicon.isSome then 1 else 0) +
       (if loggerCond r then 1 else 0) +
       (if staticCond r then 1 else 0) +
       (if directoryCond r then 1 else 0)) := by
  rcases r with ⟨n, kp, cp, li, st, lo, fa, di⟩
  refine ⟨?_, ?_, ?_, ?_, ?_, ?_, ?_⟩
  · intro hf m hm
    subst hf
    rw [middlewares_eq] at hm
    rcases lo with _ | l <;> rcases st with _ | s <;> rcases di with _ | d <;>
      simp at hm <;> cases m <;> simp_all [mwRank]
  · intro hl m hm
    subst hl
    rw [middlewares_eq] at hm
    rcases fa with _ | f <;> rcases st with _ | s <;> rcases di with _ | d <;>
      simp at hm <;> cases m <;> simp_all [mwRank]
  · intro hs m hm
    subst hs
    rw [middlewares_eq] at hm
    rcases fa with _ | f <;> rcases lo with _ | l <;> rcases di with _ | d <;>
      simp at hm <;> cases m <;> simp_all [mwRank]
  · intro hd m hm
    subst hd
    rw [middlewares_eq] at hm
    rcases fa with _ | f <;> rcases lo with _ | l <;> rcases st with _ | s <;>
      simp at hm <;> cases m <;> simp_all [mwRank]
  · intro hli
    subst hli
    rfl
  · intro htls
    simp [buildServer, createServer, htls]
  · rw [middlewares_eq]
    rcases fa with _ | f <;> rcases lo with _ | l <;> rcases st with _ | s <;>
      rcases di with _ | d <;>
      simp [loggerCond, staticCond, directoryCond] <;>
      split_ifs <;> simp_all

/-- Instance of the C7 statement at the empty record. -/
theorem absent_fields_skipped_witness :
    buildServer fsysW emptyRecord =
      some (Server.mk ServerKind.plaintext (middlewares emptyRecord)) ∧
    listenAction emptyRecord = none :=
  ⟨(absent_fields_skipped fsysW emptyRecord).2.2.2.2.2.1 rfl,
   (absent_fields_skipped fsysW emptyRecord).2.2.2.2.1 rfl⟩

/-- C8: with the logger path present, the write stream is opened with
file-creation mode 0o644 when logger.mode is absent or zero, and with
logger.mode itself when it is non-zero. -/
theorem logger_mode_default (r : OptionRecord) (l : LoggerOpts)
    (hl : r.logger = some l) (hp : truthyStr l.path = true) :
    ((l.mode = none ∨ l.mode = some 0) →
      Event.openWriteStream (strGet l.path) "w" 0o644 ∈ configureTrace r) ∧
    (∀ m, l.mode = some m → m ≠ 0 →
      Event.openWriteStream (strGet l.path) "w" m ∈ configureTrace r) := by
  have hmem : ∀ mode, jsOrNat l.mode 0o644 = mode →
      Event.openWriteStream (strGet l.path) "w" mode ∈ configureTrace r := by
    intro mode hmode
    rw [configureTrace_parts, logPart_eq r l hl hp, ← hmode]
    simp
  constructor
  · intro hmode
    apply hmem
    rcases hmode with hm | hm <;> simp [jsOrNat, hm]
  · intro m hm hm0
    apply hmem
    simp [jsOrNat, hm, hm0]

/-- Instance of the C8 statement at a record whose logger mode is absent. -/
theorem logger_mode_default_witness :
    Event.openWriteStream (strGet (some "log")) "w" 0o644 ∈
      configureTrace loggerRecordW :=
  (logger_mode_default loggerRecordW ⟨some "log", none⟩ rfl (by decide)).1
    (Or.inl rfl)

/-- Instance of the C9 statement on a concrete one-record startup trace. -/
theorem two_phase_startup_witness :
    mainTrace002 fsysW [listenRecordW] = some traceW ∧ (0 : Nat) < 2 :=
  ⟨rfl,
   two_phase_startup fsysW [listenRecordW] traceW rfl 0 2 (by decide)
     (by decide) (by decide) (by decide)⟩

end Nodify
